import Mathlib

set_option maxRecDepth 8000

/-!
Verification development for `gpt-extract.py`: a shallow embedding of the
document preprocessor, the response classifier / retry loop
(`scrape_via_prompt`), the result store (`upsert_result`) and the
orchestrator (`run`).  Python strings are modelled as `List Char`;
`time.sleep` calls and backend requests are recorded as explicit events;
the conversational backend (`chat.ask`) is modelled by a list of replies
consumed one per request; Python's `json.loads` is modelled by an
executable recursive-descent parser `jsonParse` covering objects, arrays,
strings with simple escapes, integers, booleans and null.
-/

/-! ## Document preprocessor (`clean_document`, source lines 36 and 85-92) -/

/-- Maximum characters to use in a prompt: `DOC_MAX_LENGTH = 3000`. -/
def DOC_MAX_LENGTH : Nat := 3000

/-- Characters removed by Python `str.strip()` (ASCII whitespace). -/
def isPySpace (c : Char) : Bool :=
  c == ' ' || c == '\t' || c == '\n' || c == '\r' || c == '\x0b' || c == '\x0c'

/-- Collapse every maximal run of characters satisfying `p` into the single
character `rep`; `inRun` records whether the previous character was in such
a run.  This models `re.sub(r"[class]+", rep, s)` for a one-character
replacement. -/
def collapseAux (p : Char → Bool) (rep : Char) : Bool → List Char → List Char
  | _, [] => []
  | inRun, c :: rest =>
    if p c then
      if inRun then collapseAux p rep true rest
      else rep :: collapseAux p rep true rest
    else c :: collapseAux p rep false rest

/-- Run-collapsing substitution starting outside of a run. -/
def collapseRun (p : Char → Bool) (rep : Char) (s : List Char) : List Char :=
  collapseAux p rep false s

/-- Python `str.strip()`: drop leading and trailing whitespace. -/
def pyStrip (s : List Char) : List Char :=
  ((s.dropWhile isPySpace).reverse.dropWhile isPySpace).reverse

/-- The cleaning pipeline of `clean_document` line 87:
`re.sub(r"[\t ]+", " ", re.sub(r"[\n]+", "\n", page_text)).strip()`. -/
def cleanText (page_text : List Char) : List Char :=
  pyStrip (collapseRun (fun c => c == '\t' || c == ' ') ' '
    (collapseRun (fun c => c == '\n') '\n' page_text))

/-- Python slice `s[-n:]` (for `n` positive). -/
def lastChars (n : Nat) (s : List Char) : List Char := s.drop (s.length - n)

/-- `clean_document` (source lines 85-92): return the cleaned text when its
length is strictly below `DOC_MAX_LENGTH`, otherwise the first
`DOC_MAX_LENGTH - 500` characters, a single space, and the final 500
characters. -/
def clean_document (page_text : List Char) : List Char :=
  let cleaned := cleanText page_text
  if cleaned.length < DOC_MAX_LENGTH then cleaned
  else cleaned.take (DOC_MAX_LENGTH - 500) ++ [' '] ++ lastChars 500 cleaned

/-! ## Reply classification helpers (source lines 117-139) -/

/-- Bool-valued check that `needle` is a prefix of `hay`. -/
def startsWith : List Char → List Char → Bool
  | [], _ => true
  | _ :: _, [] => false
  | a :: as, b :: bs => a == b && startsWith as bs

/-- Python substring containment `needle in hay`. -/
def containsSub (needle : List Char) : List Char → Bool
  | [] => startsWith needle []
  | c :: rest => startsWith needle (c :: rest) || containsSub needle rest

/-- Python `str.lower()` (ASCII case fold). -/
def toLowerList (s : List Char) : List Char := s.map Char.toLower

/-- Marker of a degraded reply (source line 117). -/
def degradedMarker : List Char := "unusable response produced by chatgpt".toList

/-- Marker of an explicit refusal, `bad_input` (source lines 123-126). -/
def refusalMarker : List Char :=
  "it is not possible to generate a json representation of the provided text".toList

/-- Rate-limit sentinel reply (source line 133). -/
def rateLimitSentinel : List Char := "HTTP Error 429: Too many requests".toList

/-- Line 117: `"unusable response produced by chatgpt" in response.lower()`. -/
def degraded (response : List Char) : Bool :=
  containsSub degradedMarker (toLowerList response)

/-- Line 128: `bad_input in response.lower()`. -/
def refusal (response : List Char) : Bool :=
  containsSub refusalMarker (toLowerList response)

/-- Line 133: `response.strip() == "HTTP Error 429: Too many requests"`. -/
def rateLimited (response : List Char) : Bool :=
  pyStrip response == rateLimitSentinel

/-- Line 139: `"}" in response`. -/
def hasBrace (response : List Char) : Bool := response.contains '\x7d'

/-! ## The retry loop of `scrape_via_prompt` (source lines 95-149) -/

/-- Observable actions of the script: pacing sleep (line 210),
degraded-reply backoff sleep (line 120), rate-limit sleep (line 136), a
backend request `chat.ask` (line 106), and a rewrite of the output file
(lines 240-241). -/
inductive Event where
  | paceSleep (secs : Nat)
  | backoffSleep (secs : Nat)
  | rateSleep (secs : Nat)
  | ask
  | save
deriving DecidableEq, Repr

/-- Outcome of the `while True` classification loop: a response accepted
as good, an explicit refusal (`response = None`), the three
`BadStateException` exits, or exhaustion of the modelled reply stream. -/
inductive ScrapeOutcome where
  | accepted (response : List Char)
  | refused
  | fatalWaitExceeded
  | fatalRateLimited
  | fatalIncomplete
  | noMoreReplies
deriving DecidableEq, Repr

/-- The `while True` loop of `scrape_via_prompt` (lines 105-144).  `waited`
is the running counter; the next element of the list is the reply that
`chat.ask` returns for the next request.  Produces the recorded events and
the outcome.  Checks mirror the source order: `waited > 5`, degraded
marker, refusal marker, rate-limit sentinel, missing closing brace,
otherwise accept. -/
def scrapeLoop : Nat → List (List Char) → List Event × ScrapeOutcome
  | _, [] => ([], ScrapeOutcome.noMoreReplies)
  | waited, response :: rest =>
    let w := waited + 1
    if 5 < w then ([Event.ask], ScrapeOutcome.fatalWaitExceeded)
    else if degraded response then
      (Event.ask :: Event.backoffSleep (120 * w) :: (scrapeLoop w rest).1,
       (scrapeLoop w rest).2)
    else if refusal response then ([Event.ask], ScrapeOutcome.refused)
    else if rateLimited response then
      ([Event.ask, Event.rateSleep 3600], ScrapeOutcome.fatalRateLimited)
    else if hasBrace response = false then
      ([Event.ask], ScrapeOutcome.fatalIncomplete)
    else ([Event.ask], ScrapeOutcome.accepted response)

/-- The instruction text of the prompt f-string (source line 96). -/
def promptInstruction : List Char :=
  "\n\nFor the given text, can you provide a JSON representation that strictly follows this schema:\n\n".toList

/-- A triple-backtick fence. -/
def fenceMarker : List Char := "```".toList

/-- The prompt built at source line 96. -/
def buildPrompt (page_text schema : List Char) : List Char :=
  fenceMarker ++ clean_document page_text ++ fenceMarker ++ promptInstruction
    ++ fenceMarker ++ schema ++ fenceMarker

/-- `scrape_via_prompt` (lines 95-149): returns the original prompt
together with the events and outcome of the classification loop started
at `waited = 0`. -/
def scrape_via_prompt (page_text schema : List Char) (replies : List (List Char)) :
    List Char × (List Event × ScrapeOutcome) :=
  (buildPrompt page_text schema, scrapeLoop 0 replies)

/-- Events of a block of `k` consecutive degraded replies entered with
`waited = w`: each iteration asks and then sleeps `120 * waited` seconds
(lines 117-121). -/
def degradedEventsFrom (w : Nat) : Nat → List Event
  | 0 => []
  | k + 1 =>
    Event.ask :: Event.backoffSleep (120 * (w + 1)) :: degradedEventsFrom (w + 1) k

/-- Events of `k` consecutive degraded replies from a fresh document. -/
def degradedEvents (k : Nat) : List Event := degradedEventsFrom 0 k

/-! ## JSON values and a model of `json.loads`

`data = json.loads(response.split("```")[1])` at source line 225.  The
parser below is an executable model of Python's `json.loads` covering
objects, arrays, strings with single-character escapes, integer numbers,
booleans and null (fractions, exponents and unicode escapes are rejected,
which only makes the modelled `data` `none` in cases the claims do not
exercise). -/

/-- JSON values as produced by the modelled `json.loads`. -/
inductive Json where
  | null
  | bool (b : Bool)
  | num (n : Int)
  | str (s : List Char)
  | arr (elems : List Json)
  | obj (fields : List (List Char × Json))

/-- JSON insignificant whitespace. -/
def jsonWs (c : Char) : Bool := c == ' ' || c == '\t' || c == '\n' || c == '\r'

/-- Skip insignificant whitespace. -/
def skipWs (s : List Char) : List Char := s.dropWhile jsonWs

/-- Single-character JSON string escapes. -/
def escChar (c : Char) : Option Char :=
  if c == '\"' then some '\"'
  else if c == '\\' then some '\\'
  else if c == '/' then some '/'
  else if c == 'n' then some '\n'
  else if c == 't' then some '\t'
  else if c == 'r' then some '\r'
  else if c == 'b' then some '\x08'
  else if c == 'f' then some '\x0c'
  else none

/-- Parse the remainder of a JSON string literal (after the opening
quote), returning its characters and the rest of the input. -/
def parseStrChars : List Char → Option (List Char × List Char)
  | [] => none
  | '\"' :: rest => some ([], rest)
  | '\\' :: e :: rest =>
    match escChar e with
    | none => none
    | some c =>
      match parseStrChars rest with
      | none => none
      | some (cs, r) => some (c :: cs, r)
  | c :: rest =>
    match parseStrChars rest with
    | none => none
    | some (cs, r) => some (c :: cs, r)

/-- Numeric value of a decimal digit. -/
def digitVal (c : Char) : Nat := c.toNat - '0'.toNat

/-- Leading decimal digits of the input and the rest. -/
def takeDigits (s : List Char) : List Char × List Char :=
  (s.takeWhile Char.isDigit, s.dropWhile Char.isDigit)

/-- Decimal digits to a natural number. -/
def digitsToNat (ds : List Char) : Nat :=
  ds.foldl (fun acc c => 10 * acc + digitVal c) 0

/-- A number may not continue with a fraction or exponent (unsupported by
this model of the parser). -/
def numBreakOk (r : List Char) : Bool :=
  match r with
  | [] => true
  | c :: _ => !(c == '.' || c == 'e' || c == 'E')

/-- Parse an integer JSON number at the head of the input. -/
def parseNumAt (s : List Char) : Option (Json × List Char) :=
  match s with
  | '-' :: rest =>
    match takeDigits rest with
    | ([], _) => none
    | (ds, r) =>
      if numBreakOk r then some (Json.num (-(digitsToNat ds : Int)), r) else none
  | _ =>
    match takeDigits s with
    | ([], _) => none
    | (ds, r) =>
      if numBreakOk r then some (Json.num (digitsToNat ds), r) else none

mutual

/-- Parse one JSON value; `fuel` bounds the recursion depth. -/
def parseVal : Nat → List Char → Option (Json × List Char)
  | 0, _ => none
  | fuel + 1, s =>
    match skipWs s with
    | [] => none
    | 'n' :: 'u' :: 'l' :: 'l' :: r => some (Json.null, r)
    | 't' :: 'r' :: 'u' :: 'e' :: r => some (Json.bool true, r)
    | 'f' :: 'a' :: 'l' :: 's' :: 'e' :: r => some (Json.bool false, r)
    | '\"' :: r =>
      match parseStrChars r with
      | none => none
      | some (cs, r2) => some (Json.str cs, r2)
    | '[' :: r =>
      match skipWs r with
      | ']' :: r2 => some (Json.arr [], r2)
      | r2 =>
        match parseArrRest fuel r2 with
        | none => none
        | some (xs, r3) => some (Json.arr xs, r3)
    | '\x7b' :: r =>
      match skipWs r with
      | '\x7d' :: r2 => some (Json.obj [], r2)
      | r2 =>
        match parseObjRest fuel r2 with
        | none => none
        | some (kvs, r3) => some (Json.obj kvs, r3)
    | c :: _ =>
      if c == '-' || c.isDigit then parseNumAt (skipWs s) else none

/-- Parse the elements of a non-empty JSON array (after the bracket). -/
def parseArrRest : Nat → List Char → Option (List Json × List Char)
  | 0, _ => none
  | fuel + 1, s =>
    match parseVal fuel s with
    | none => none
    | some (v, r) =>
      match skipWs r with
      | ',' :: r2 =>
        match parseArrRest fuel r2 with
        | none => none
        | some (vs, r3) => some (v :: vs, r3)
      | ']' :: r2 => some ([v], r2)
      | _ => none

/-- Parse the members of a non-empty JSON object (after the brace). -/
def parseObjRest : Nat → List Char → Option (List (List Char × Json) × List Char)
  | 0, _ => none
  | fuel + 1, s =>
    match skipWs s with
    | '\"' :: r =>
      match parseStrChars r with
      | none => none
      | some (k, r2) =>
        match skipWs r2 with
        | ':' :: r3 =>
          match parseVal fuel r3 with
          | none => none
          | some (v, r4) =>
            match skipWs r4 with
            | ',' :: r5 =>
              match parseObjRest fuel r5 with
              | none => none
              | some (kvs, r6) => some ((k, v) :: kvs, r6)
            | '\x7d' :: r5 => some ([(k, v)], r5)
            | _ => none
        | _ => none
    | _ => none

end

/-- Model of Python `json.loads`: parse one value and require only
whitespace to remain. -/
def jsonParse (s : List Char) : Option Json :=
  match parseVal (s.length + 1) s with
  | none => none
  | some (v, rest) => if (skipWs rest).isEmpty then some v else none

/-! ## Python `str.split(sep)` for a fixed non-empty separator -/

/-- Worker for `splitOnSep`: scan left to right, emitting a part at every
non-overlapping separator occurrence; `acc` holds the current part
reversed, `fuel` bounds the number of steps (each step consumes at least
one character). -/
def splitGo (sep : List Char) : Nat → List Char → List Char → List (List Char)
  | _, [], acc => [acc.reverse]
  | 0, cs, acc => [acc.reverse ++ cs]
  | fuel + 1, c :: rest, acc =>
    if startsWith sep (c :: rest) then
      acc.reverse :: splitGo sep fuel ((c :: rest).drop sep.length) []
    else splitGo sep fuel rest (c :: acc)

/-- Python `s.split(sep)` for non-empty `sep`. -/
def splitOnSep (sep s : List Char) : List (List Char) :=
  splitGo sep s.length s []

/-- Lines 223-228: `data = json.loads(response.split("```")[1])` inside a
`try`/`except` that leaves `data = None` on any failure.  A `None`
response (refusal) raises `AttributeError` at `.split`, a missing second
part raises `IndexError`, a bad payload raises a parse error — all caught,
so all yield `none`. -/
def parseData : Option (List Char) → Option Json
  | none => none
  | some response =>
    match (splitOnSep fenceMarker response)[1]? with
    | none => none
    | some mid => jsonParse mid

/-! ## Data model: documents, exchange results, the result store -/

/-- A document: an identifier and its text (section 3 of the data model;
`parse_input_documents` builds `{id, text}` records). -/
structure Doc where
  id : Int
  text : List Char

/-- An exchange result as assembled at source lines 230-236. -/
structure Result where
  id : Int
  text : List Char
  prompt : List Char
  response : Option (List Char)
  data : Option Json

/-- `upsert_result` (source lines 152-161): overwrite the first entry with
the same id in place, else append. -/
def upsert_result (results : List Result) (result : Result) : List Result :=
  match results with
  | [] => [result]
  | r :: rest =>
    if r.id == result.id then result :: rest
    else r :: upsert_result rest result

/-- Python `max` over a non-empty list (`None` for the empty list, where
Python raises `ValueError`). -/
def maxId : List Int → Option Int
  | [] => none
  | x :: xs => some (xs.foldl max x)

/-- `already_scraped = set([r["id"] for r in results])` (line 187); only
its maximum is used, for which the list of ids suffices. -/
def alreadyScrapedIds (results : List Result) : List Int :=
  results.map (fun r => r.id)

/-- Line 191: `continue_at = max(list(already_scraped)) + 1`; `none` when
`max` would raise on an empty store. -/
def resumeCursor (results : List Result) : Option Int :=
  (maxId (alreadyScrapedIds results)).map (fun m => m + 1)

/-- Line 205: `continue_at is not None and pk < continue_at`. -/
def beforeCursor (continue_at : Option Int) (pk : Int) : Bool :=
  match continue_at with
  | none => false
  | some c => decide (pk < c)

/-- How a run terminates abnormally: the `ValueError` from `max` on an
empty store, a propagated `BadStateException`, or exhaustion of the
modelled reply stream. -/
inductive RunError where
  | emptyMaxError
  | badState
  | oracleExhausted
deriving DecidableEq, Repr

/-- The `for page_data in documents` loop of `run` (source lines 194-242).
Each document carries the stream of replies the backend returns for its
successive requests.  Skips blank text (line 199), then documents before
the resume cursor (line 205); then the literal translation of lines
208-211 (`if not first_scrape: time.sleep(60); first_scrape = False`);
then the scrape, whose fatal outcomes propagate (line 216 re-raises);
otherwise the exchange result is recorded (`data` from `parseData`,
`response = None` on refusal per line 129), upserted and saved. -/
def runLoop (firstScrape : Bool) (continue_at : Option Int) (schema : List Char)
    (results : List Result) :
    List (Doc × List (List Char)) → List Event × Except RunError (List Result)
  | [] => ([], Except.ok results)
  | (doc, replies) :: rest =>
    if doc.text.isEmpty then runLoop firstScrape continue_at schema results rest
    else if beforeCursor continue_at doc.id then
      runLoop firstScrape continue_at schema results rest
    else
      let pace : List Event := if firstScrape then [] else [Event.paceSleep 60]
      let fs2 : Bool := if firstScrape then firstScrape else false
      let prompt := (scrape_via_prompt doc.text schema replies).1
      let sevs := (scrape_via_prompt doc.text schema replies).2.1
      match (scrape_via_prompt doc.text schema replies).2.2 with
      | ScrapeOutcome.fatalWaitExceeded => (pace ++ sevs, Except.error RunError.badState)
      | ScrapeOutcome.fatalRateLimited => (pace ++ sevs, Except.error RunError.badState)
      | ScrapeOutcome.fatalIncomplete => (pace ++ sevs, Except.error RunError.badState)
      | ScrapeOutcome.noMoreReplies => (pace ++ sevs, Except.error RunError.oracleExhausted)
      | ScrapeOutcome.refused =>
        (pace ++ sevs ++ [Event.save]
           ++ (runLoop fs2 continue_at schema
                 (upsert_result results ⟨doc.id, doc.text, prompt, none, parseData none⟩) rest).1,
         (runLoop fs2 continue_at schema
            (upsert_result results ⟨doc.id, doc.text, prompt, none, parseData none⟩) rest).2)
      | ScrapeOutcome.accepted r =>
        (pace ++ sevs ++ [Event.save]
           ++ (runLoop fs2 continue_at schema
                 (upsert_result results ⟨doc.id, doc.text, prompt, some r, parseData (some r)⟩) rest).1,
         (runLoop fs2 continue_at schema
            (upsert_result results ⟨doc.id, doc.text, prompt, some r, parseData (some r)⟩) rest).2)

/-- `run` (source lines 164-242): load the prior store, apply the
resume-positioning logic of lines 190-192 (`continue_last` overrides
`continue_at` with `max(ids) + 1`, raising on an empty store), then drive
the document loop with `first_scrape = True`. -/
def run (documents : List (Doc × List (List Char))) (schema : List Char)
    (prior : List Result) (continue_at : Option Int) (continue_last : Bool) :
    List Event × Except RunError (List Result) :=
  if continue_last then
    match resumeCursor prior with
    | none => ([], Except.error RunError.emptyMaxError)
    | some c => runLoop true (some c) schema prior documents
  else runLoop true continue_at schema prior documents

/-- Number of entries of the store carrying a given id. -/
def countId (results : List Result) (pk : Int) : Nat :=
  (results.filter (fun r => r.id == pk)).length

/-- The store invariant: at most one exchange result per id. -/
def uniqueIds (results : List Result) : Prop :=
  ∀ pk : Int, countId results pk ≤ 1

/-! ## Concrete inputs used by witnesses and counterexamples -/

/-- A minimal good reply: the two braces parse as an (empty) JSON text
fragment check and trip none of the abnormal markers. -/
def goodReplyEx : List Char := "\x7b\x7d".toList

/-- A refusal reply (mixed case, matched case-insensitively). -/
def refusalEx : List Char :=
  "It is not possible to generate a JSON representation of the provided text".toList

/-- The accepted-reply parsing example from the specification. -/
def exampleReply : List Char := "prefix ```\x7b\"a\":1\x7d``` suffix".toList

/-- A good reply holding JSON text but no triple-backtick fence. -/
def noFenceReply : List Char := "no fence \x7b\"a\":1\x7d here".toList

/-- A reply without any closing brace and without abnormal markers. -/
def incompleteEx : List Char := "Sorry, here is an incomplete answer".toList

/-- A one-character document with id 0. -/
def docT : Doc := ⟨0, ['t']⟩

/-- Documents used by the concrete pacing run. -/
def goodDocA : Doc := ⟨0, ['a']⟩

/-- Second document of the concrete pacing run. -/
def goodDocB : Doc := ⟨1, ['b']⟩

/-- A prior result store holding ids 0, 2 and 5. -/
def priorStoreEx : List Result :=
  [⟨0, ['a'], [], none, none⟩, ⟨2, ['b'], [], none, none⟩, ⟨5, ['c'], [], none, none⟩]

/-- Two exchange results sharing id 7. -/
def resultA : Result := ⟨7, ['x'], [], none, none⟩

/-- The later upsert for id 7. -/
def resultB : Result := ⟨7, ['y'], [], some ['z'], none⟩

/-! # Theorems -/

/-! ## Preprocessor lemmas -/

/-- Run-collapsing is the identity on text free of the collapsed class. -/
theorem collapseAux_eq_self (p : Char → Bool) (rep : Char) (l : List Char)
    (h : ∀ c ∈ l, p c = false) : ∀ b, collapseAux p rep b l = l := by
  induction l with
  | nil => intro b; rfl
  | cons c rest ih =>
    intro b
    have hc : p c = false := h c (List.mem_cons_self c rest)
    have hrest : ∀ x ∈ rest, p x = false := fun x hx => h x (List.mem_cons_of_mem _ hx)
    simp [collapseAux, hc, ih hrest false]

/-- dropWhile is the identity when no element satisfies the predicate. -/
theorem dropWhile_eq_self_of (q : Char → Bool) (l : List Char)
    (h : ∀ c ∈ l, q c = false) : l.dropWhile q = l := by
  cases l with
  | nil => rfl
  | cons c rest => simp [List.dropWhile_cons, h c (List.mem_cons_self c rest)]

/-- Stripping is the identity on whitespace-free text. -/
theorem pyStrip_eq_self (l : List Char) (h : ∀ c ∈ l, isPySpace c = false) :
    pyStrip l = l := by
  unfold pyStrip
  rw [dropWhile_eq_self_of _ _ h, dropWhile_eq_self_of, List.reverse_reverse]
  intro c hc
  exact h c (List.mem_reverse.mp hc)

/-- The cleaning pipeline fixes a run of letters. -/
theorem cleanText_replicate_a (n : Nat) :
    cleanText (List.replicate n 'a') = List.replicate n 'a' := by
  have hmem : ∀ c ∈ List.replicate n 'a', c = 'a' :=
    fun c hc => List.eq_of_mem_replicate hc
  have e1 : collapseRun (fun c => c == '\n') '\n' (List.replicate n 'a') =
      List.replicate n 'a' :=
    collapseAux_eq_self _ _ _ (fun c hc => by rw [hmem c hc]; rfl) false
  have e2 : collapseRun (fun c => c == '\t' || c == ' ') ' ' (List.replicate n 'a') =
      List.replicate n 'a' :=
    collapseAux_eq_self _ _ _ (fun c hc => by rw [hmem c hc]; rfl) false
  unfold cleanText
  rw [e1, e2]
  exact pyStrip_eq_self _ (fun c hc => by rw [hmem c hc]; rfl)

/-- In the truncation branch `clean_document` keeps head, a space, and
tail. -/
theorem clean_document_big_eq (s : List Char)
    (h : ¬ (cleanText s).length < 3000) :
    clean_document s =
      (cleanText s).take 2500 ++ [' '] ++ lastChars 500 (cleanText s) := by
  have h2 : ¬ (cleanText s).length < DOC_MAX_LENGTH := h
  simp only [clean_document]
  rw [if_neg h2]
  rfl

/-- The truncated output has exactly 3001 characters. -/
theorem clean_document_big_length (s : List Char)
    (h : 3000 ≤ (cleanText s).length) :
    (clean_document s).length = 3001 := by
  rw [clean_document_big_eq s (by omega)]
  simp only [List.length_append, List.length_take, lastChars, List.length_drop,
    List.length_cons, List.length_nil]
  omega

/-! ## C3: truncation shape -/

/-- C3 (amended): for cleaned text longer than 3000 characters,
`clean_document` returns the first 2500 characters, one space, and the
last 500 characters — 3001 characters in total (the claim stated 2501). -/
theorem truncation_shape (s : List Char) (h : 3000 < (cleanText s).length) :
    clean_document s =
      (cleanText s).take 2500 ++ [' '] ++ lastChars 500 (cleanText s)
    ∧ (clean_document s).length = 3001 :=
  ⟨clean_document_big_eq s (by omega), clean_document_big_length s (by omega)⟩

/-- Witness for C3 at 3001 letters of cleaned text. -/
theorem truncation_shape_witness :
    3000 < (cleanText (List.replicate 3001 'a')).length
    ∧ (clean_document (List.replicate 3001 'a') =
        (cleanText (List.replicate 3001 'a')).take 2500 ++ [' ']
          ++ lastChars 500 (cleanText (List.replicate 3001 'a'))
      ∧ (clean_document (List.replicate 3001 'a')).length = 3001) := by
  have h : 3000 < (cleanText (List.replicate 3001 'a')).length := by
    rw [cleanText_replicate_a, List.length_replicate]; omega
  exact ⟨h, truncation_shape _ h⟩

/-- Counterexample for C3 as stated: on a 3001-letter cleaned input the
output has 3001 characters, not 2501. -/
theorem truncation_shape_cex :
    (clean_document (List.replicate 3001 'a')).length ≠ 2501 := by
  rw [clean_document_big_length]
  · decide
  · rw [cleanText_replicate_a, List.length_replicate]; omega

/-! ## C4: truncation identity -/

/-- C4 (amended): `clean_document` returns the cleaned text unchanged when
its length is strictly below 3000 (the claim allowed length 3000 as
well, but the source guard is a strict `<`). -/
theorem truncation_identity (s : List Char) (h : (cleanText s).length < 3000) :
    clean_document s = cleanText s := by
  have h2 : (cleanText s).length < DOC_MAX_LENGTH := h
  simp only [clean_document]
  rw [if_pos h2]

/-- Witness for C4 on a two-letter document. -/
theorem truncation_identity_witness :
    (cleanText "ab".toList).length < 3000
    ∧ clean_document "ab".toList = cleanText "ab".toList := by
  have h : (cleanText "ab".toList).length < 3000 := by decide
  exact ⟨h, truncation_identity _ h⟩

/-- Counterexample for C4 as stated: a cleaned input of length exactly
3000 is within the configured maximum yet is not returned unchanged. -/
theorem truncation_identity_cex :
    clean_document (List.replicate 3000 'a') ≠ List.replicate 3000 'a' := by
  intro hEq
  have hlen := congrArg List.length hEq
  rw [clean_document_big_length] at hlen
  · simp only [List.length_replicate] at hlen
    omega
  · rw [cleanText_replicate_a, List.length_replicate]

/-! ## Retry-loop lemmas -/

/-- A block of degraded replies entered with `waited = w` and staying
within the wait bound contributes its ask/backoff events and hands the
loop on with the counter advanced. -/
theorem scrapeLoop_degraded_block (ds : List (List Char))
    (hd : ∀ d ∈ ds, degraded d = true) :
    ∀ w rest, w + ds.length ≤ 5 →
      scrapeLoop w (ds ++ rest) =
        (degradedEventsFrom w ds.length ++ (scrapeLoop (w + ds.length) rest).1,
         (scrapeLoop (w + ds.length) rest).2) := by
  induction ds with
  | nil =>
    intro w rest h
    simp [degradedEventsFrom]
  | cons d ds ih =>
    intro w rest h
    have hdd : degraded d = true := hd d (List.mem_cons_self _ _)
    have hds : ∀ x ∈ ds, degraded x = true :=
      fun x hx => hd x (List.mem_cons_of_mem _ hx)
    have hlen : (d :: ds).length = ds.length + 1 := rfl
    rw [hlen] at h
    have hw : ¬ 5 < w + 1 := by omega
    have hrec := ih hds (w + 1) rest (by omega)
    have harith : w + 1 + ds.length = w + (ds.length + 1) := by omega
    rw [harith] at hrec
    simp only [List.cons_append, scrapeLoop, hdd, if_neg hw, if_true, hrec,
      degradedEventsFrom, hlen]
    rw [List.append_eq, hrec]

/-! ## C1: degraded-reply retry bound -/

/-- C1 (amended): for a document whose first replies are degraded, at most
4 degraded replies followed by a normal reply lead to acceptance of that
reply, with a `120 * attempt` backoff sleep before each resubmission;
after exactly 5 degraded replies the 6th request is made and the loop
aborts fatally regardless of the 6th reply (so 5 degraded replies never
fall through to acceptance, and 6 consecutive degraded replies abort on
the 6th attempt). -/
theorem degraded_retry_bound (ds : List (List Char))
    (hd : ∀ d ∈ ds, degraded d = true) :
    (∀ r, degraded r = false → refusal r = false → rateLimited r = false →
        hasBrace r = true → ds.length ≤ 4 →
        scrapeLoop 0 (ds ++ [r]) =
          (degradedEvents ds.length ++ [Event.ask], ScrapeOutcome.accepted r))
    ∧ (ds.length = 5 → ∀ r6 rest,
        scrapeLoop 0 (ds ++ r6 :: rest) =
          (degradedEvents 5 ++ [Event.ask], ScrapeOutcome.fatalWaitExceeded)) := by
  constructor
  · intro r h1 h2 h3 h4 hlen
    rw [scrapeLoop_degraded_block ds hd 0 [r] (by omega)]
    have hw : ¬ 5 < 0 + ds.length + 1 := by omega
    simp only [scrapeLoop, hw, if_false, h1, h2, h3, h4, degradedEvents]
    simp
  · intro hlen r6 rest
    rw [scrapeLoop_degraded_block ds hd 0 (r6 :: rest) (by omega)]
    have hw : 5 < 0 + ds.length + 1 := by omega
    simp only [scrapeLoop, hw, if_true, degradedEvents, hlen]
    simp

/-- Witness for C1: three degraded replies then a good one are accepted
after backoffs of 120, 240 and 360 seconds. -/
theorem degraded_retry_bound_witness :
    (∀ d ∈ List.replicate 3 degradedMarker, degraded d = true)
    ∧ scrapeLoop 0 (List.replicate 3 degradedMarker ++ [goodReplyEx]) =
        (degradedEvents 3 ++ [Event.ask], ScrapeOutcome.accepted goodReplyEx) := by
  have hd : ∀ d ∈ List.replicate 3 degradedMarker, degraded d = true := by decide
  exact ⟨hd, (degraded_retry_bound _ hd).1 _ (by decide) (by decide) (by decide)
    (by decide) (by decide)⟩

/-- Counterexample for C1 as stated: five degraded replies (fewer than
six) followed by a normal reply do not fall through to acceptance — the
6th attempt aborts fatally. -/
theorem degraded_retry_cex :
    (scrapeLoop 0 (List.replicate 5 degradedMarker ++ [goodReplyEx])).2 =
      ScrapeOutcome.fatalWaitExceeded
    ∧ (scrapeLoop 0 (List.replicate 5 degradedMarker ++ [goodReplyEx])).2 ≠
        ScrapeOutcome.accepted goodReplyEx := by
  exact ⟨by decide, by decide⟩

/-! ## C6: incomplete-reply heuristic -/

/-- C6: a reply matching none of the degraded, refusal or rate-limit
checks and containing no closing brace aborts the session fatally on the
spot, whatever replies would have followed. -/
theorem incomplete_fatal_abort (r : List Char) (rest : List (List Char))
    (h1 : degraded r = false) (h2 : refusal r = false)
    (h3 : rateLimited r = false) (h4 : hasBrace r = false) :
    scrapeLoop 0 (r :: rest) = ([Event.ask], ScrapeOutcome.fatalIncomplete) := by
  simp [scrapeLoop, h1, h2, h3, h4]

/-- Witness for C6 on a brace-free reply. -/
theorem incomplete_fatal_abort_witness :
    degraded incompleteEx = false ∧ refusal incompleteEx = false
    ∧ rateLimited incompleteEx = false ∧ hasBrace incompleteEx = false
    ∧ scrapeLoop 0 [incompleteEx] = ([Event.ask], ScrapeOutcome.fatalIncomplete) :=
  ⟨by decide, by decide, by decide, by decide,
   incomplete_fatal_abort _ _ (by decide) (by decide) (by decide) (by decide)⟩

/-! ## Result-store lemmas -/

/-- Unfolding the count over a cons cell. -/
theorem countId_cons (x : Result) (l : List Result) (q : Int) :
    countId (x :: l) q = countId l q + (if (x.id == q) = true then 1 else 0) := by
  simp only [countId, List.filter_cons]
  split
  · simp [Nat.add_comm]
  · simp

/-- Upserting does not change the count of any other id. -/
theorem countId_upsert_ne (rs : List Result) (r : Result) (q : Int)
    (h : ¬ r.id = q) :
    countId (upsert_result rs r) q = countId rs q := by
  have hr : (r.id == q) = false := by simp [h]
  induction rs with
  | nil =>
    have e : upsert_result [] r = [r] := rfl
    rw [e, countId_cons, hr]
    simp
  | cons a rest ih =>
    cases ha : a.id == r.id with
    | true =>
      have e : upsert_result (a :: rest) r = r :: rest := by
        simp [upsert_result, ha]
      have haq : (a.id == q) = false := by
        have h2 : a.id = r.id := by simpa using ha
        simp [h2, h]
      rw [e, countId_cons, countId_cons, hr, haq]
    | false =>
      have e : upsert_result (a :: rest) r = a :: upsert_result rest r := by
        simp [upsert_result, ha]
      rw [e, countId_cons, countId_cons, ih]

/-- Upserting into a store respecting the invariant leaves exactly one
entry with the upserted id. -/
theorem countId_upsert_self (rs : List Result) (r : Result)
    (h : countId rs r.id ≤ 1) :
    countId (upsert_result rs r) r.id = 1 := by
  induction rs with
  | nil =>
    have e : upsert_result [] r = [r] := rfl
    rw [e, countId_cons]
    simp [countId]
  | cons a rest ih =>
    cases ha : a.id == r.id with
    | true =>
      have e : upsert_result (a :: rest) r = r :: rest := by
        simp [upsert_result, ha]
      have hrest : countId rest r.id = 0 := by
        rw [countId_cons, ha] at h
        simp at h
        omega
      rw [e, countId_cons, hrest]
      simp
    | false =>
      have e : upsert_result (a :: rest) r = a :: upsert_result rest r := by
        simp [upsert_result, ha]
      rw [countId_cons, ha] at h
      simp at h
      rw [e, countId_cons, ha, ih h]
      simp

/-- Upserting preserves the at-most-one-per-id invariant. -/
theorem uniqueIds_upsert (rs : List Result) (r : Result) (h : uniqueIds rs) :
    uniqueIds (upsert_result rs r) := by
  intro q
  by_cases hq : r.id = q
  · subst hq
    rw [countId_upsert_self rs r (h r.id)]
  · rw [countId_upsert_ne rs r q hq]
    exact h q

/-- Upserting keeps the position of the id: the first index carrying the
id is unchanged (the length when the id is new, matching an append). -/
theorem findIdx_upsert (rs : List Result) (r : Result) :
    (upsert_result rs r).findIdx (fun x => x.id == r.id) =
      rs.findIdx (fun x => x.id == r.id) := by
  induction rs with
  | nil => simp [upsert_result, List.findIdx, List.findIdx.go]
  | cons a rest ih =>
    by_cases ha : (a.id == r.id) = true
    · simp [upsert_result, ha, List.findIdx_cons]
    · simp [upsert_result, ha, List.findIdx_cons, ih]

/-- The upserted entry sits at the first index carrying its id. -/
theorem getElem_upsert (rs : List Result) (r : Result) :
    (upsert_result rs r)[rs.findIdx (fun x => x.id == r.id)]? = some r := by
  induction rs with
  | nil => simp [upsert_result, List.findIdx, List.findIdx.go]
  | cons a rest ih =>
    by_cases ha : (a.id == r.id) = true
    · simp [upsert_result, ha, List.findIdx_cons]
    · simp [upsert_result, ha, List.findIdx_cons, ih]

/-! ## C8: upsert uniqueness and replacement -/

/-- C8: two upserts with the same id leave exactly one entry for that id,
at the position the first upsert occupied, holding the later content; and
any upsert preserves the at-most-one-per-id invariant. -/
theorem upsert_uniqueness (rs : List Result) (r1 r2 : Result)
    (hid : r1.id = r2.id) (hu : uniqueIds rs) :
    countId (upsert_result (upsert_result rs r1) r2) r2.id = 1
    ∧ uniqueIds (upsert_result (upsert_result rs r1) r2)
    ∧ (upsert_result (upsert_result rs r1) r2).findIdx (fun x => x.id == r2.id) =
        (upsert_result rs r1).findIdx (fun x => x.id == r1.id)
    ∧ (upsert_result (upsert_result rs r1) r2)[
        (upsert_result rs r1).findIdx (fun x => x.id == r1.id)]? = some r2
    ∧ (∀ (rs2 : List Result) (r : Result), uniqueIds rs2 →
        uniqueIds (upsert_result rs2 r)) := by
  have hu1 : uniqueIds (upsert_result rs r1) := uniqueIds_upsert _ _ hu
  refine ⟨countId_upsert_self _ _ (hu1 r2.id),
    uniqueIds_upsert _ _ hu1, ?_, ?_,
    fun rs2 r h => uniqueIds_upsert _ _ h⟩
  · rw [findIdx_upsert, hid]
  · rw [hid]
    exact getElem_upsert _ _

/-- Witness for C8 on an empty store and two results with id 7. -/
theorem upsert_uniqueness_witness :
    resultA.id = resultB.id ∧ uniqueIds []
    ∧ countId (upsert_result (upsert_result [] resultA) resultB) resultB.id = 1 := by
  have hu : uniqueIds ([] : List Result) := by
    intro pk; simp [countId]
  exact ⟨rfl, hu, (upsert_uniqueness [] resultA resultB rfl hu).1⟩

/-! ## Fence-splitting lemmas -/

/-- With no separator occurrence the scan emits a single part. -/
theorem splitGo_no_occurrence (sep : List Char) (cs : List Char)
    (h : containsSub sep cs = false) :
    ∀ fuel acc, splitGo sep fuel cs acc = [acc.reverse ++ cs] := by
  induction cs with
  | nil =>
    intro fuel acc
    cases fuel <;> simp [splitGo]
  | cons c rest ih =>
    intro fuel acc
    simp only [containsSub, Bool.or_eq_false_iff] at h
    obtain ⟨hsw, hrest⟩ := h
    cases fuel with
    | zero => rfl
    | succ f =>
      simp only [splitGo, hsw, Bool.false_eq_true, if_false]
      rw [ih hrest f (c :: acc)]
      simp

/-- A reply without a triple-backtick fence yields no parsed data. -/
theorem parseData_no_fence (r : List Char)
    (h : containsSub fenceMarker r = false) :
    parseData (some r) = none := by
  simp only [parseData, splitOnSep]
  rw [splitGo_no_occurrence _ _ h]
  rfl

/-! ## Orchestrator-loop lemmas -/

/-- The literal translation of lines 208-211 never changes the flag. -/
theorem firstScrape_invariant (fs : Bool) : (if fs then fs else false) = fs := by
  cases fs <;> rfl

/-- Processing one document whose first reply is an explicit refusal:
one request, a saved exchange result with `response = None` and no
parsed data, and the loop continues on the remaining documents. -/
theorem runLoop_refused_cons (doc : Doc) (r : List Char)
    (replies : List (List Char)) (docs : List (Doc × List (List Char)))
    (schema : List Char) (results : List Result) (ca : Option Int) (fs : Bool)
    (ht : doc.text.isEmpty = false) (hc : beforeCursor ca doc.id = false)
    (h1 : degraded r = false) (h2 : refusal r = true) :
    runLoop fs ca schema results ((doc, r :: replies) :: docs) =
      ((if fs then [] else [Event.paceSleep 60]) ++ [Event.ask] ++ [Event.save]
         ++ (runLoop fs ca schema
               (upsert_result results
                 ⟨doc.id, doc.text, buildPrompt doc.text schema, none, none⟩) docs).1,
       (runLoop fs ca schema
          (upsert_result results
            ⟨doc.id, doc.text, buildPrompt doc.text schema, none, none⟩) docs).2) := by
  have hout : (scrape_via_prompt doc.text schema (r :: replies)).2.2 =
      ScrapeOutcome.refused := by
    simp [scrape_via_prompt, scrapeLoop, h1, h2]
  have hevs : (scrape_via_prompt doc.text schema (r :: replies)).2.1 =
      [Event.ask] := by
    simp [scrape_via_prompt, scrapeLoop, h1, h2]
  have hprompt : (scrape_via_prompt doc.text schema (r :: replies)).1 =
      buildPrompt doc.text schema := rfl
  simp only [runLoop, ht, Bool.false_eq_true, if_false, hc, hout, hevs, hprompt,
    firstScrape_invariant, parseData]

/-- Processing one document whose first reply is accepted: one request,
a saved exchange result keeping the reply and its parsed data, and the
loop continues on the remaining documents. -/
theorem runLoop_accepted_cons (doc : Doc) (r : List Char)
    (replies : List (List Char)) (docs : List (Doc × List (List Char)))
    (schema : List Char) (results : List Result) (ca : Option Int) (fs : Bool)
    (ht : doc.text.isEmpty = false) (hc : beforeCursor ca doc.id = false)
    (h1 : degraded r = false) (h2 : refusal r = false)
    (h3 : rateLimited r = false) (h4 : hasBrace r = true) :
    runLoop fs ca schema results ((doc, r :: replies) :: docs) =
      ((if fs then [] else [Event.paceSleep 60]) ++ [Event.ask] ++ [Event.save]
         ++ (runLoop fs ca schema
               (upsert_result results
                 ⟨doc.id, doc.text, buildPrompt doc.text schema, some r,
                  parseData (some r)⟩) docs).1,
       (runLoop fs ca schema
          (upsert_result results
            ⟨doc.id, doc.text, buildPrompt doc.text schema, some r,
             parseData (some r)⟩) docs).2) := by
  have hout : (scrape_via_prompt doc.text schema (r :: replies)).2.2 =
      ScrapeOutcome.accepted r := by
    simp [scrape_via_prompt, scrapeLoop, h1, h2, h3, h4]
  have hevs : (scrape_via_prompt doc.text schema (r :: replies)).2.1 =
      [Event.ask] := by
    simp [scrape_via_prompt, scrapeLoop, h1, h2, h3, h4]
  have hprompt : (scrape_via_prompt doc.text schema (r :: replies)).1 =
      buildPrompt doc.text schema := rfl
  simp only [runLoop, ht, Bool.false_eq_true, if_false, hc, hout, hevs, hprompt,
    firstScrape_invariant]

/-- Documents wholly before the resume cursor (or blank) are skipped:
no events, no store change, normal completion. -/
theorem runLoop_skip_all (c : Int) (schema : List Char) (fs : Bool)
    (rs : List Result) (docs : List (Doc × List (List Char)))
    (h : ∀ p ∈ docs, p.1.id < c) :
    runLoop fs (some c) schema rs docs = ([], Except.ok rs) := by
  induction docs with
  | nil => rfl
  | cons p rest ih =>
    obtain ⟨doc, replies⟩ := p
    have hd : doc.id < c := h (doc, replies) (List.mem_cons_self _ _)
    have hrest : ∀ q ∈ rest, q.1.id < c :=
      fun q hq => h q (List.mem_cons_of_mem _ hq)
    have hb : beforeCursor (some c) doc.id = true := by
      simp [beforeCursor, hd]
    cases ht : doc.text.isEmpty with
    | true => simp only [runLoop, ht, if_true]; exact ih hrest
    | false =>
      simp only [runLoop, ht, Bool.false_eq_true, if_false, hb, if_true]
      exact ih hrest

/-- The classification loop never performs a pacing sleep. -/
theorem scrapeLoop_no_pace (replies : List (List Char)) :
    ∀ (w n : Nat), Event.paceSleep n ∉ (scrapeLoop w replies).1 := by
  induction replies with
  | nil => intro w n; simp [scrapeLoop]
  | cons r rest ih =>
    intro w n
    simp only [scrapeLoop]
    split
    · simp
    · split
      · simp only [List.mem_cons]
        push_neg
        exact ⟨by simp, by simp, ih (w + 1) n⟩
      · split
        · simp
        · split
          · simp
          · split
            · simp
            · simp

/-- Under the source's flag handling (lines 208-211) a run started with
`first_scrape = True` never sleeps for pacing: the flag is only cleared
inside the branch requiring it to be already clear. -/
theorem runLoop_no_pace (docs : List (Doc × List (List Char))) (ca : Option Int)
    (schema : List Char) (rs : List Result) (n : Nat) :
    Event.paceSleep n ∉ (runLoop true ca schema rs docs).1 := by
  induction docs generalizing rs with
  | nil => simp [runLoop]
  | cons p rest ih =>
    obtain ⟨doc, replies⟩ := p
    simp only [runLoop]
    cases ht : doc.text.isEmpty with
    | true => simp only [if_true]; exact ih rs
    | false =>
      simp only [Bool.false_eq_true, if_false]
      cases hb : beforeCursor ca doc.id with
      | true => simp only [if_true]; exact ih rs
      | false =>
        simp only [Bool.false_eq_true, if_false, if_true]
        have hsp : Event.paceSleep n ∉
            (scrape_via_prompt doc.text schema replies).2.1 := by
          simp only [scrape_via_prompt]
          exact scrapeLoop_no_pace replies 0 n
        split
        · simp only [List.nil_append]
          exact hsp
        · simp only [List.nil_append]
          exact hsp
        · simp only [List.nil_append]
          exact hsp
        · simp only [List.nil_append]
          exact hsp
        · simp only [List.nil_append, List.mem_append, List.mem_singleton]
          push_neg
          exact ⟨⟨hsp, by simp⟩, ih _⟩
        · simp only [List.nil_append, List.mem_append, List.mem_singleton]
          push_neg
          exact ⟨⟨hsp, by simp⟩, ih _⟩

/-! ## C2: inter-request pacing -/

/-- C2 (code defect): contrary to the claim, no 60-second pacing delay is
ever applied.  The flag clearing of source line 211 sits inside the
`if not first_scrape` branch, so the flag stays `True` for the whole run
and `time.sleep(60)` is unreachable; in particular a two-document run
performs its two requests with no pacing sleep between them. -/
theorem pacing_never_applied :
    (∀ (docs : List (Doc × List (List Char))) (ca : Option Int)
        (schema : List Char) (rs : List Result) (n : Nat),
      Event.paceSleep n ∉ (runLoop true ca schema rs docs).1)
    ∧ (runLoop true none [] []
         [(goodDocA, [goodReplyEx]), (goodDocB, [goodReplyEx])]).1 =
        [Event.ask, Event.save, Event.ask, Event.save] :=
  ⟨fun docs ca schema rs n => runLoop_no_pace docs ca schema rs n, rfl⟩

/-! ## C5: explicit refusal handling -/

/-- C5 (amended): a refusal reply ends the document non-fatally: the
exchange result is recorded with absent data, and the loop moves on to
the remaining documents; however the recorded `response` is `None` — the
reply text is not retained (source line 129 clears it before breaking). -/
theorem refusal_nonfatal (doc : Doc) (r : List Char) (replies : List (List Char))
    (docs : List (Doc × List (List Char))) (schema : List Char)
    (results : List Result) (ca : Option Int) (fs : Bool)
    (ht : doc.text.isEmpty = false) (hc : beforeCursor ca doc.id = false)
    (h1 : degraded r = false) (h2 : refusal r = true) :
    runLoop fs ca schema results ((doc, r :: replies) :: docs) =
      ((if fs then [] else [Event.paceSleep 60]) ++ [Event.ask] ++ [Event.save]
         ++ (runLoop fs ca schema
               (upsert_result results
                 ⟨doc.id, doc.text, buildPrompt doc.text schema, none, none⟩) docs).1,
       (runLoop fs ca schema
          (upsert_result results
            ⟨doc.id, doc.text, buildPrompt doc.text schema, none, none⟩) docs).2) :=
  runLoop_refused_cons doc r replies docs schema results ca fs ht hc h1 h2

/-- Witness for C5: a single refusal reply yields one request, one save,
a recorded result with `response = none` and `data = none`, and a normal
(non-fatal) completion. -/
theorem refusal_nonfatal_witness :
    docT.text.isEmpty = false ∧ beforeCursor none docT.id = false
    ∧ degraded refusalEx = false ∧ refusal refusalEx = true
    ∧ runLoop true none [] [] [(docT, [refusalEx])] =
        ([Event.ask, Event.save],
         Except.ok [⟨docT.id, docT.text, buildPrompt docT.text [], none, none⟩]) := by
  refine ⟨rfl, rfl, by decide, by decide, ?_⟩
  rw [refusal_nonfatal docT refusalEx [] [] [] [] none true rfl rfl
    (by decide) (by decide)]
  rfl

/-- Counterexample for C5 as stated: on a refusal the recorded exchange
result's `response` field is `none`, not the reply text. -/
theorem refusal_response_cex :
    (runLoop true none [] [] [(docT, [refusalEx])]).2 =
      Except.ok [⟨docT.id, docT.text, buildPrompt docT.text [], none, none⟩]
    ∧ (⟨docT.id, docT.text, buildPrompt docT.text [], none, none⟩ : Result).response
        ≠ some refusalEx := by
  constructor
  · rfl
  · simp

/-! ## C7: resume correctness -/

/-- C7: with `continue_last`, the resume cursor for a store holding ids
0, 2 and 5 is 6, and every document whose id is strictly below the cursor
is skipped — no requests, store unchanged — including ids absent from the
store. -/
theorem resume_correctness (docs : List (Doc × List (List Char)))
    (schema : List Char) (h : ∀ p ∈ docs, p.1.id < 6) :
    resumeCursor priorStoreEx = some 6
    ∧ run docs schema priorStoreEx none true = ([], Except.ok priorStoreEx) := by
  refine ⟨rfl, ?_⟩
  have e : run docs schema priorStoreEx none true =
      runLoop true (some 6) schema priorStoreEx docs := rfl
  rw [e]
  exact runLoop_skip_all 6 schema true priorStoreEx docs h

/-- Witness for C7: a document with id 3 — absent from the store — is
skipped. -/
theorem resume_correctness_witness :
    (∀ p ∈ [((⟨3, ['x']⟩ : Doc), ([] : List (List Char)))], p.1.id < 6)
    ∧ run [(⟨3, ['x']⟩, [])] [] priorStoreEx none true =
        ([], Except.ok priorStoreEx) := by
  have h : ∀ p ∈ [((⟨3, ['x']⟩ : Doc), ([] : List (List Char)))], p.1.id < 6 := by
    decide
  exact ⟨h, (resume_correctness _ _ h).2⟩

/-! ## C9: accepted-reply parsing -/

/-- C9: the text between the first and second fence of an accepted reply
is parsed as JSON into `data` (the specification's example yields the
object mapping key a to 1); a reply without any fence yields no data;
and in both cases the exchange result is recorded and processing
continues without crashing. -/
theorem accepted_reply_parsing :
    parseData (some exampleReply) = some (Json.obj [(['a'], Json.num 1)])
    ∧ (∀ r, containsSub fenceMarker r = false → parseData (some r) = none)
    ∧ (∀ (doc : Doc) (r : List Char) (schema : List Char) (results : List Result)
         (docs : List (Doc × List (List Char))),
        doc.text.isEmpty = false → degraded r = false → refusal r = false →
        rateLimited r = false → hasBrace r = true →
        runLoop true none schema results ((doc, [r]) :: docs) =
          ([Event.ask] ++ [Event.save]
             ++ (runLoop true none schema
                   (upsert_result results
                     ⟨doc.id, doc.text, buildPrompt doc.text schema, some r,
                      parseData (some r)⟩) docs).1,
           (runLoop true none schema
              (upsert_result results
                ⟨doc.id, doc.text, buildPrompt doc.text schema, some r,
                 parseData (some r)⟩) docs).2)) := by
  refine ⟨rfl, fun r h => parseData_no_fence r h, ?_⟩
  intro doc r schema results docs ht h1 h2 h3 h4
  rw [runLoop_accepted_cons doc r [] docs schema results none true ht rfl h1 h2 h3 h4]
  rfl

/-- Witness for C9: the fence-free good reply is recorded with no data and
the run continues. -/
theorem accepted_reply_parsing_witness :
    (containsSub fenceMarker noFenceReply = false
      ∧ parseData (some noFenceReply) = none)
    ∧ (docT.text.isEmpty = false ∧ degraded goodReplyEx = false
      ∧ refusal goodReplyEx = false ∧ rateLimited goodReplyEx = false
      ∧ hasBrace goodReplyEx = true
      ∧ runLoop true none [] [] [(docT, [goodReplyEx])] =
          ([Event.ask, Event.save],
           Except.ok [⟨docT.id, docT.text, buildPrompt docT.text [],
                       some goodReplyEx, parseData (some goodReplyEx)⟩])) := by
  refine ⟨⟨by decide, accepted_reply_parsing.2.1 _ (by decide)⟩,
    rfl, by decide, by decide, by decide, by decide, ?_⟩
  rw [accepted_reply_parsing.2.2 docT goodReplyEx [] [] [] rfl (by decide)
    (by decide) (by decide) (by decide)]
  rfl

/-! ## C10: continue_last on an empty store -/

/-- C10: with `continue_last` requested and an empty prior store the run
fails at the resume-cursor computation (Python `max` of an empty
collection raises) before any document is processed: no events and no
results are produced. -/
theorem continue_last_empty_store (docs : List (Doc × List (List Char)))
    (schema : List Char) (continue_at : Option Int) :
    run docs schema [] continue_at true =
      ([], Except.error RunError.emptyMaxError) := rfl
